import Mathlib

/-!
Verification of the AC'97 audio driver (`src/driver/ac97.rs`) and the
boot-info constructor (`Libraries/SulphurDioxide/src/lib.rs`).

The register types in the source are `modular_bitfield` structs: a register
is a fixed-width raw integer, every field accessor reads or writes only the
bits of its declared range.  We embed the raw level as `Nat` together with
explicit shift/mask accessors (`getBits` / `setBits`), and the struct level
as Lean structures with an encoding (`toRaw`, mirroring
`new().with_a(..).with_b(..)`) and a decoding (`ofRaw`, mirroring the field
getters).
-/

/-- Read field bits `[off, off+w)` of a raw register value. -/
def getBits (off w r : Nat) : Nat := (r >>> off) % 2 ^ w

/-- Mask covering the bits `[off, off+w)`. -/
def fieldMask (off w : Nat) : Nat := (2 ^ w - 1) <<< off

/-- Write `v` into field bits `[off, off+w)` of a raw register of width
`wid`, leaving every other bit of the register unchanged.  The source
setters reject out-of-range values; here the value is truncated to the
field width, which agrees with the source on every in-range value. -/
def setBits (wid off w r v : Nat) : Nat :=
  (r &&& ((2 ^ wid - 1) ^^^ fieldMask off w)) ||| ((v % 2 ^ w) <<< off)

theorem testBit_getBits (off w r j : Nat) :
    (getBits off w r).testBit j = (decide (j < w) && r.testBit (off + j)) := by
  simp [getBits, Nat.testBit_mod_two_pow, Nat.testBit_shiftRight]

theorem testBit_setBits (wid off w r v j : Nat) (hww : off + w ≤ wid) :
    (setBits wid off w r v).testBit j =
      if off ≤ j ∧ j < off + w then v.testBit (j - off)
      else (r.testBit j && decide (j < wid)) := by
  unfold setBits fieldMask
  simp only [Nat.testBit_lor, Nat.testBit_land, Nat.testBit_xor,
    Nat.testBit_shiftLeft, Nat.testBit_two_pow_sub_one, Nat.testBit_mod_two_pow]
  by_cases h1 : off ≤ j
  · by_cases h2 : j < off + w
    · have hw : j - off < w := by omega
      have hwid : j < wid := by omega
      rw [if_pos ⟨h1, h2⟩]
      simp [h1, h2, hw, hwid]
    · have hw : ¬ (j - off < w) := by omega
      rw [if_neg (by omega)]
      by_cases h3 : j < wid <;> simp [h1, h2, h3, hw]
  · have hw : ¬ (j ≥ off) := by omega
    rw [if_neg (by omega)]
    by_cases h3 : j < wid <;> simp [h1, h3, hw]

theorem setBits_testBit_outside {wid off w r v j : Nat} (hww : off + w ≤ wid)
    (hj : ¬ (off ≤ j ∧ j < off + w)) (hwid : j < wid) :
    (setBits wid off w r v).testBit j = r.testBit j := by
  rw [testBit_setBits wid off w r v j hww, if_neg hj]
  simp [hwid]

/-! ## Enumerated sub-fields (`PcmChannels`, `PcmOutMode`) -/

/-- `PcmChannels`: 2-bit field, variants `Two = 0`, `Four = 1`, `Six = 2`. -/
inductive PcmChannels where
  | Two
  | Four
  | Six
  deriving DecidableEq, Fintype

def PcmChannels.toBits : PcmChannels → Nat
  | .Two => 0
  | .Four => 1
  | .Six => 2

def PcmChannels.ofBits : Nat → Option PcmChannels
  | 0 => some .Two
  | 1 => some .Four
  | 2 => some .Six
  | _ => none

/-- `PcmOutMode`: 2-bit field, variants `SixteenSamples = 0`,
`TwentySamples = 1`. -/
inductive PcmOutMode where
  | SixteenSamples
  | TwentySamples
  deriving DecidableEq, Fintype

def PcmOutMode.toBits : PcmOutMode → Nat
  | .SixteenSamples => 0
  | .TwentySamples => 1

def PcmOutMode.ofBits : Nat → Option PcmOutMode
  | 0 => some .SixteenSamples
  | 1 => some .TwentySamples
  | _ => none

/-! ## Register model

Layouts are transcribed from the `#[bitfield]` declarations in
`ac97.rs`; fields are laid out starting at bit 0 in declaration order,
`#[skip]` fields are reserved bits. -/

/-- `MasterOutputVolume` (16 bits): `right: B6`, 2 reserved, `left: B6`,
1 reserved, `mute: bool`. -/
structure MasterOutputVolume where
  right : Nat
  left : Nat
  mute : Bool
  deriving DecidableEq

namespace MasterOutputVolume

def with_right (r v : Nat) : Nat := setBits 16 0 6 r v
def with_left (r v : Nat) : Nat := setBits 16 8 6 r v
def with_mute (r : Nat) (b : Bool) : Nat := setBits 16 15 1 r (cond b 1 0)
def readRight (r : Nat) : Nat := getBits 0 6 r
def readLeft (r : Nat) : Nat := getBits 8 6 r
def readMute (r : Nat) : Bool := r.testBit 15

/-- Encoding of a struct value, mirroring `new().with_right(..).with_left(..).with_mute(..)`. -/
def toRaw (s : MasterOutputVolume) : Nat :=
  with_mute (with_left (with_right 0 s.right) s.left) s.mute

def ofRaw (r : Nat) : MasterOutputVolume := ⟨readRight r, readLeft r, readMute r⟩

end MasterOutputVolume

/-- `PcmOutputVolume` (16 bits): `right: B5`, 3 reserved, `left: B5`,
2 reserved, `mute: bool`. -/
structure PcmOutputVolume where
  right : Nat
  left : Nat
  mute : Bool
  deriving DecidableEq

namespace PcmOutputVolume

def with_right (r v : Nat) : Nat := setBits 16 0 5 r v
def with_left (r v : Nat) : Nat := setBits 16 8 5 r v
def with_mute (r : Nat) (b : Bool) : Nat := setBits 16 15 1 r (cond b 1 0)
def readRight (r : Nat) : Nat := getBits 0 5 r
def readLeft (r : Nat) : Nat := getBits 8 5 r
def readMute (r : Nat) : Bool := r.testBit 15

def toRaw (s : PcmOutputVolume) : Nat :=
  with_mute (with_left (with_right 0 s.right) s.left) s.mute

def ofRaw (r : Nat) : PcmOutputVolume := ⟨readRight r, readLeft r, readMute r⟩

end PcmOutputVolume

/-- `RegBoxTransfer` (8 bits): `transfer_data`, `reset`,
`last_ent_fire_intr`, `ioc_intr`, `fifo_err_intr`, 3 reserved. -/
structure RegBoxTransfer where
  transfer_data : Bool
  reset : Bool
  last_ent_fire_intr : Bool
  ioc_intr : Bool
  fifo_err_intr : Bool
  deriving DecidableEq

namespace RegBoxTransfer

def with_transfer_data (r : Nat) (b : Bool) : Nat := setBits 8 0 1 r (cond b 1 0)
def with_reset (r : Nat) (b : Bool) : Nat := setBits 8 1 1 r (cond b 1 0)
def with_last_ent_fire_intr (r : Nat) (b : Bool) : Nat := setBits 8 2 1 r (cond b 1 0)
def with_ioc_intr (r : Nat) (b : Bool) : Nat := setBits 8 3 1 r (cond b 1 0)
def with_fifo_err_intr (r : Nat) (b : Bool) : Nat := setBits 8 4 1 r (cond b 1 0)
def readReset (r : Nat) : Bool := r.testBit 1

def toRaw (s : RegBoxTransfer) : Nat :=
  with_fifo_err_intr (with_ioc_intr (with_last_ent_fire_intr
    (with_reset (with_transfer_data 0 s.transfer_data) s.reset)
    s.last_ent_fire_intr) s.ioc_intr) s.fifo_err_intr

def ofRaw (r : Nat) : RegBoxTransfer :=
  ⟨r.testBit 0, r.testBit 1, r.testBit 2, r.testBit 3, r.testBit 4⟩

end RegBoxTransfer

/-- `RegBoxStatus` (16 bits): `transfer_data`, `end_of_transfer`,
`last_ent_fire_intr`, `ioc_intr`, `fifo_err_intr`, 11 reserved. -/
structure RegBoxStatus where
  transfer_data : Bool
  end_of_transfer : Bool
  last_ent_fire_intr : Bool
  ioc_intr : Bool
  fifo_err_intr : Bool
  deriving DecidableEq

namespace RegBoxStatus

def with_transfer_data (r : Nat) (b : Bool) : Nat := setBits 16 0 1 r (cond b 1 0)
def with_end_of_transfer (r : Nat) (b : Bool) : Nat := setBits 16 1 1 r (cond b 1 0)
def with_last_ent_fire_intr (r : Nat) (b : Bool) : Nat := setBits 16 2 1 r (cond b 1 0)
def with_ioc_intr (r : Nat) (b : Bool) : Nat := setBits 16 3 1 r (cond b 1 0)
def with_fifo_err_intr (r : Nat) (b : Bool) : Nat := setBits 16 4 1 r (cond b 1 0)
def readEndOfTransfer (r : Nat) : Bool := r.testBit 1

def toRaw (s : RegBoxStatus) : Nat :=
  with_fifo_err_intr (with_ioc_intr (with_last_ent_fire_intr
    (with_end_of_transfer (with_transfer_data 0 s.transfer_data) s.end_of_transfer)
    s.last_ent_fire_intr) s.ioc_intr) s.fifo_err_intr

def ofRaw (r : Nat) : RegBoxStatus :=
  ⟨r.testBit 0, r.testBit 1, r.testBit 2, r.testBit 3, r.testBit 4⟩

end RegBoxStatus

/-- `GlobalControl` (32 bits): `interrupts`, `cold_reset`, `warm_reset`,
`shut_down`, 16 reserved, `channels: PcmChannels` (bits 20-21),
`pcm_out_mode: PcmOutMode` (bits 22-23), 8 reserved. -/
structure GlobalControl where
  interrupts : Bool
  cold_reset : Bool
  warm_reset : Bool
  shut_down : Bool
  channels : PcmChannels
  pcm_out_mode : PcmOutMode
  deriving DecidableEq

namespace GlobalControl

def with_interrupts (r : Nat) (b : Bool) : Nat := setBits 32 0 1 r (cond b 1 0)
def with_cold_reset (r : Nat) (b : Bool) : Nat := setBits 32 1 1 r (cond b 1 0)
def with_warm_reset (r : Nat) (b : Bool) : Nat := setBits 32 2 1 r (cond b 1 0)
def with_shut_down (r : Nat) (b : Bool) : Nat := setBits 32 3 1 r (cond b 1 0)
def with_channels (r : Nat) (c : PcmChannels) : Nat := setBits 32 20 2 r c.toBits
def with_pcm_out_mode (r : Nat) (m : PcmOutMode) : Nat := setBits 32 22 2 r m.toBits

def toRaw (s : GlobalControl) : Nat :=
  with_pcm_out_mode (with_channels (with_shut_down (with_warm_reset
    (with_cold_reset (with_interrupts 0 s.interrupts) s.cold_reset)
    s.warm_reset) s.shut_down) s.channels) s.pcm_out_mode

/-- Decoding; the enum getters are checked, an undefined discriminant
yields `none` (the source getter panics there). -/
def ofRaw (r : Nat) : Option GlobalControl :=
  match PcmChannels.ofBits (getBits 20 2 r), PcmOutMode.ofBits (getBits 22 2 r) with
  | some ch, some pm =>
      some ⟨r.testBit 0, r.testBit 1, r.testBit 2, r.testBit 3, ch, pm⟩
  | _, _ => none

end GlobalControl

/-- `GlobalStatus` (32 bits): 20 reserved, `channel_caps: PcmChannels`
(bits 20-21, getter only in the source), `sample_caps: PcmOutMode`
(bits 22-23), 8 reserved. -/
structure GlobalStatus where
  channel_caps : PcmChannels
  sample_caps : PcmOutMode
  deriving DecidableEq

namespace GlobalStatus

def with_sample_caps (r : Nat) (m : PcmOutMode) : Nat := setBits 32 22 2 r m.toBits

/-- Encoding by field layout; `channel_caps` has no source setter
(`#[skip(setters)]`), its bits are placed per the declared layout. -/
def toRaw (s : GlobalStatus) : Nat :=
  with_sample_caps (setBits 32 20 2 0 s.channel_caps.toBits) s.sample_caps

def ofRaw (r : Nat) : Option GlobalStatus :=
  match PcmChannels.ofBits (getBits 20 2 r), PcmOutMode.ofBits (getBits 22 2 r) with
  | some ch, some pm => some ⟨ch, pm⟩
  | _, _ => none

end GlobalStatus

/-- `BufferDescCtl` (16 bits): 14 reserved, `last`, `fire_interrupt`. -/
structure BufferDescCtl where
  last : Bool
  fire_interrupt : Bool
  deriving DecidableEq

namespace BufferDescCtl

def with_last (r : Nat) (b : Bool) : Nat := setBits 16 14 1 r (cond b 1 0)
def with_fire_interrupt (r : Nat) (b : Bool) : Nat := setBits 16 15 1 r (cond b 1 0)

def toRaw (s : BufferDescCtl) : Nat :=
  with_fire_interrupt (with_last 0 s.last) s.fire_interrupt

def ofRaw (r : Nat) : BufferDescCtl := ⟨r.testBit 14, r.testBit 15⟩

end BufferDescCtl

/-! ## Buffer descriptors and the descriptor ring -/

/-- `BufferDescriptor { addr: u32, samples: u16, ctl: BufferDescCtl }`. -/
structure BufferDescriptor where
  addr : Nat
  samples : Nat
  ctl : BufferDescCtl
  deriving DecidableEq

def dfltDesc : BufferDescriptor := ⟨0, 0, ⟨false, false⟩⟩

/-- `off_calc` from `Ac97::new`: byte offset of ring entry `ent`. -/
def off_calc (ent : Nat) : Nat := 0xFFFE * 2 * ent

/-- One descriptor pushed by the ring-building loop in `Ac97::new`:
address is the buffer physical base plus `off_calc i` (u32 arithmetic),
`0xFFFE` samples, control word defaulted. -/
def mkDesc (base i : Nat) : BufferDescriptor :=
  ⟨(base + off_calc i) % 2 ^ 32, 0xFFFE, ⟨false, false⟩⟩

/-- `bdl.last_mut().unwrap().ctl.set_last(true)`: set the `last` flag on
the final element of the ring. -/
def setLastDesc : List BufferDescriptor → List BufferDescriptor
  | [] => []
  | [d] => [{ d with ctl := { d.ctl with last := true } }]
  | d :: e :: rest => d :: setLastDesc (e :: rest)

/-- The ring built in `Ac97::new`: 0x1F descriptors at sequential offsets,
then the `last` flag on the final entry. -/
def buildBdl (base : Nat) : List BufferDescriptor :=
  setLastDesc ((List.range 0x1F).map (mkDesc base))

/-- `0x1F * 0xFFFE * 2`: the audio buffer size in bytes, which is also the
transfer window of `play_audio`. -/
def ringBytes : Nat := 0x1F * 0xFFFE * 2

theorem ringBytes_pos : 0 < ringBytes := by decide

theorem ringBytes_val : ringBytes = 4063108 := by decide

/-! ## Hardware interaction events

`Ac97::new` and `Ac97::play_audio` interleave PCI configuration accesses,
port reads/writes and memory operations; we record them as an event
trace.  Values read from the hardware are inputs (oracle parameters);
values written are computed by the driver and recorded in the events. -/

inductive Event where
  | cfgRead (off : Nat)
  | cfgWrite (off v : Nat)
  | allocBuf (len : Nat)
  | buildRing (base : Nat)
  | readGlobalCtl
  | writeGlobalCtl (v : Nat)
  | writeMixerReset (v : Nat)
  | writeMasterVol (v : Nat)
  | writePcmVol (v : Nat)
  | readSampleRate
  | writeSampleRate (v : Nat)
  | readTransferCtl
  | writeTransferCtl (v : Nat)
  | readTransferSts
  | writeBdlAddr (v : Nat)
  | writeLastEnt (v : Nat)
  | copy (buf : List Nat)
  deriving DecidableEq

/-- The device-handle state owned by the driver: the audio buffer bytes,
the descriptor ring, and the ring's physical address. -/
structure Ac97State where
  buf : List Nat
  bdl : List BufferDescriptor
  bdlPhys : Nat
  deriving DecidableEq

/-- PCI command register offset.  Modelled from the spec: the PCI access
layer (`pci.rs`) is outside `src/`; offsets follow the PCI configuration
space layout the spec's step 1 and 2 refer to. -/
def cfgCommand : Nat := 0x4

/-- PCI BAR0 offset (mixer / NAM range).  Modelled from the spec. -/
def cfgBaseAddr0 : Nat := 0x10

/-- PCI BAR1 offset (bus-master / NABM range).  Modelled from the spec. -/
def cfgBaseAddr1 : Nat := 0x14

/-- Modelled from the spec: `PciCmd` lives in the PCI layer outside
`src/`; step 1 enables PIO access (bit 0) and bus mastering (bit 2) and
disables legacy interrupt generation (bit 10) on the 16-bit command
register. -/
def pciCmdEnable (c : Nat) : Nat :=
  setBits 16 10 1 (setBits 16 2 1 (setBits 16 0 1 c 1) 1) 1

/-- Value written to the master volume register at bring-up:
`MasterOutputVolume::new().with_right(0x3F).with_left(0x3F).with_mute(false)`. -/
def masterVolInit : Nat :=
  MasterOutputVolume.with_mute
    (MasterOutputVolume.with_left (MasterOutputVolume.with_right 0 0x3F) 0x3F) false

/-- Value written to the PCM volume register at bring-up:
`PcmOutputVolume::new().with_right(0x1F).with_left(0x1F).with_mute(false)`. -/
def pcmVolInit : Nat :=
  PcmOutputVolume.with_mute
    (PcmOutputVolume.with_left (PcmOutputVolume.with_right 0 0x1F) 0x1F) false

/-- Value written to the global control register at bring-up:
`GlobalControl::from(g).with_cold_reset(true).with_interrupts(false)`. -/
def gctlColdReset (g : Nat) : Nat :=
  GlobalControl.with_interrupts (GlobalControl.with_cold_reset g true) false

/-- Hardware responses consumed by `Ac97::new`: the initial PCI command
value, the global-control and transfer-control values read before being
rewritten, and the number of transfer-control reads in the reset poll
loop that still saw the reset bit set (the loop reads `rstPolls + 1`
times in total, the final read seeing the bit clear). -/
structure NewOracle where
  cmd0 : Nat
  gctl0 : Nat
  tctl0 : Nat
  rstPolls : Nat
  deriving DecidableEq

/-- Shallow embedding of `Ac97::new`: the trace of PCI/port/memory
operations in program order, and the resulting device state.  `physBase`
is the audio buffer's physical base address (the source computes it via
`PHYS_VIRT_OFFSET`, consumed here as a parameter), `bdlPhys` the ring's
physical address. -/
def ac97_new (physBase bdlPhys : Nat) (o : NewOracle) : List Event × Ac97State :=
  ([Event.cfgRead cfgCommand,
    Event.cfgWrite cfgCommand (pciCmdEnable o.cmd0),
    Event.cfgRead cfgBaseAddr1,
    Event.cfgRead cfgBaseAddr0,
    Event.allocBuf ringBytes,
    Event.buildRing physBase,
    Event.readGlobalCtl,
    Event.writeGlobalCtl (gctlColdReset o.gctl0),
    Event.writeMixerReset 0xFFFF,
    Event.writeMasterVol masterVolInit,
    Event.writePcmVol pcmVolInit,
    Event.readSampleRate,
    Event.writeSampleRate 44100,
    Event.readTransferCtl,
    Event.writeTransferCtl (RegBoxTransfer.with_reset o.tctl0 true)]
   ++ List.replicate (o.rstPolls + 1) Event.readTransferCtl
   ++ [Event.writeBdlAddr bdlPhys,
       Event.writeLastEnt ((buildBdl physBase).length - 1)],
   ⟨List.replicate ringBytes 0, buildBdl physBase, bdlPhys⟩)

/-! ## The playback engine -/

/-- Hardware responses consumed by one iteration of the `play_audio`
loop: the two transfer-control values read before the reset and start
writes, and the lengths of the two poll loops (each loop performs
`polls + 1` reads, the final read satisfying the exit condition). -/
structure IterOracle where
  tctl1 : Nat
  rstPolls : Nat
  tctl2 : Nat
  stsPolls : Nat
  deriving DecidableEq

/-- The copy step of one iteration:
`buf.iter_mut().zip(data[off..].iter().chain(repeat(&0)))` overwrites the
whole buffer with the input bytes from `off` on, zero-padded. -/
def copyWindow (data : List Nat) (off bufLen : Nat) : List Nat :=
  (data.drop off ++ List.replicate bufLen 0).take bufLen

/-- The events of one iteration of the `play_audio` loop, in program
order: reset the output channel and poll until the reset bit clears,
rewrite the BDL address and last-entry registers, copy the window into
the buffer, set the transfer bit, poll the status register until the end
of transfer. -/
def iterEvents (data : List Nat) (off : Nat) (o : IterOracle)
    (bdlLen bdlPhys bufLen : Nat) : List Event :=
  [Event.readTransferCtl,
   Event.writeTransferCtl (RegBoxTransfer.with_reset o.tctl1 true)]
  ++ List.replicate (o.rstPolls + 1) Event.readTransferCtl
  ++ [Event.writeBdlAddr bdlPhys,
      Event.writeLastEnt (bdlLen - 1),
      Event.copy (copyWindow data off bufLen),
      Event.readTransferCtl,
      Event.writeTransferCtl (RegBoxTransfer.with_transfer_data o.tctl2 true)]
  ++ List.replicate (o.stsPolls + 1) Event.readTransferSts

/-- One loop iteration: its events plus the state update (only the
buffer contents change). -/
def iterStep (data : List Nat) (off : Nat) (o : IterOracle) (st : Ac97State) :
    List Event × Ac97State :=
  (iterEvents data off o st.bdl.length st.bdlPhys st.buf.length,
   { st with buf := copyWindow data off st.buf.length })

/-- The `while off < data.len()` loop of `play_audio`; `off` advances by
`ringBytes` after every iteration.  The recursion is driven by a fuel
counter so it is structural; since every iteration advances `off` by
`ringBytes ≥ 1`, any fuel of at least `data.length - off` makes the fuel
inexhaustible, so `play_audio` below (fuel `data.length`) is exactly the
source loop. -/
def playLoop : Nat → List Nat → (Nat → IterOracle) → Ac97State → Nat →
    List Event × Ac97State
  | 0, _, _, st, _ => ([], st)
  | fuel + 1, data, os, st, off =>
    if off < data.length then
      ((iterStep data off (os 0) st).1 ++
        (playLoop fuel data (fun i => os (i + 1))
          (iterStep data off (os 0) st).2 (off + ringBytes)).1,
       (playLoop fuel data (fun i => os (i + 1))
         (iterStep data off (os 0) st).2 (off + ringBytes)).2)
    else ([], st)

/-- Shallow embedding of `Ac97::play_audio`. -/
def play_audio (data : List Nat) (os : Nat → IterOracle) (st : Ac97State) :
    List Event × Ac97State :=
  playLoop data.length data os st 0

/-- Number of loop iterations `play_audio` performs on input of length
`len`: the ceiling of `len / ringBytes`. -/
def numIters (len : Nat) : Nat := (len + ringBytes - 1) / ringBytes

/-- Concatenation of the first `n` per-iteration traces. -/
def tracesFrom (f : Nat → List Event) : Nat → List Event
  | 0 => []
  | n + 1 => f 0 ++ tracesFrom (fun i => f (i + 1)) n

/-- The buffer snapshot carried by a copy event, if any. -/
def copyOf : Event → Option (List Nat)
  | Event.copy b => some b
  | _ => none

/-- Buffer snapshots recorded by the copy steps of a trace. -/
def copyEvents (t : List Event) : List (List Nat) :=
  t.filterMap copyOf

/-! Event classifiers, used to state where in a trace each bring-up step
happens. -/

def Event.isCfgWrite : Event → Bool
  | Event.cfgWrite _ _ => true
  | _ => false

def Event.isBarRead : Event → Bool
  | Event.cfgRead o => o == cfgBaseAddr0 || o == cfgBaseAddr1
  | _ => false

def Event.isAllocBuf : Event → Bool
  | Event.allocBuf _ => true
  | _ => false

def Event.isBuildRing : Event → Bool
  | Event.buildRing _ => true
  | _ => false

def Event.isWriteGlobalCtl : Event → Bool
  | Event.writeGlobalCtl _ => true
  | _ => false

def Event.isWriteMixerReset : Event → Bool
  | Event.writeMixerReset _ => true
  | _ => false

def Event.isWriteMasterVol : Event → Bool
  | Event.writeMasterVol _ => true
  | _ => false

def Event.isWritePcmVol : Event → Bool
  | Event.writePcmVol _ => true
  | _ => false

def Event.isWriteSampleRate : Event → Bool
  | Event.writeSampleRate _ => true
  | _ => false

def Event.isWriteTransferCtl : Event → Bool
  | Event.writeTransferCtl _ => true
  | _ => false

def Event.isWriteBdlAddr : Event → Bool
  | Event.writeBdlAddr _ => true
  | _ => false

def Event.isWriteLastEnt : Event → Bool
  | Event.writeLastEnt _ => true
  | _ => false

/-! ## The boot-info constructor (`SulphurDioxide`) -/

/-- `CURRENT_REVISION` from `SulphurDioxide/src/lib.rs`. -/
def CURRENT_REVISION : Nat := 0x17

/-- `BootInfo`; the out-of-scope payload types (kernel symbols, boot
settings, memory-map entries, framebuffer info, ACPI RSDP) are opaque
type parameters. -/
structure BootInfo (K S M F R : Type) where
  revision : Nat
  kern_symbols : List K
  settings : S
  memory_map : List M
  frame_buffer : Option F
  acpi_rsdp : R
  dc_cache : List Nat

/-- `BootInfo::new`: fixes `revision` to `CURRENT_REVISION` and
`memory_map` to `Default::default()` (the empty slice). -/
def BootInfo.new {K S M F R : Type} (kern_symbols : List K) (settings : S)
    (frame_buffer : Option F) (acpi_rsdp : R) (dc_cache : List Nat) :
    BootInfo K S M F R :=
  { revision := CURRENT_REVISION
    kern_symbols := kern_symbols
    settings := settings
    memory_map := (default : List M)
    frame_buffer := frame_buffer
    acpi_rsdp := acpi_rsdp
    dc_cache := dc_cache }

/-! ## Helper lemmas -/

theorem setLastDesc_length (l : List BufferDescriptor) :
    (setLastDesc l).length = l.length := by
  induction l with
  | nil => rfl
  | cons d rest ih =>
    cases rest with
    | nil => rfl
    | cons e rest2 => simpa [setLastDesc] using ih

theorem setLastDesc_getD (l : List BufferDescriptor) (i : Nat) (d : BufferDescriptor)
    (h : i + 1 < l.length) : (setLastDesc l).getD i d = l.getD i d := by
  induction l generalizing i with
  | nil => simp at h
  | cons x rest ih =>
    cases rest with
    | nil => simp at h
    | cons e rest2 =>
      cases i with
      | zero => rfl
      | succ i =>
        have h2 : i + 1 < (e :: rest2).length := by
          simp at h ⊢; omega
        simpa [setLastDesc, List.getD_cons_succ] using ih i h2

theorem setLastDesc_getD_last (l : List BufferDescriptor) (d : BufferDescriptor)
    (h : l ≠ []) :
    (setLastDesc l).getD (l.length - 1) d =
      { l.getD (l.length - 1) d with
        ctl := { (l.getD (l.length - 1) d).ctl with last := true } } := by
  induction l with
  | nil => simp at h
  | cons x rest ih =>
    cases rest with
    | nil => rfl
    | cons e rest2 =>
      have hne : e :: rest2 ≠ [] := by simp
      have hlen : (x :: e :: rest2).length - 1 = ((e :: rest2).length - 1) + 1 := by
        simp
      rw [hlen]
      simpa [setLastDesc, List.getD_cons_succ] using ih hne

theorem rangeMap_getD {α : Type} (f : Nat → α) (n i : Nat) (h : i < n) (d : α) :
    ((List.range n).map f).getD i d = f i := by
  rw [List.getD_eq_getElem?_getD, List.getElem?_map, List.getElem?_range h]
  rfl

theorem buildBdl_length (base : Nat) : (buildBdl base).length = 0x1F := by
  simp [buildBdl, setLastDesc_length]

theorem buildBdl_getD (base i : Nat) (hi : i < 0x1F) (d : BufferDescriptor) :
    (buildBdl base).getD i d =
      if i = 30 then
        { mkDesc base i with ctl := { (mkDesc base i).ctl with last := true } }
      else mkDesc base i := by
  have hlen : ((List.range 0x1F).map (mkDesc base)).length = 0x1F := by simp
  by_cases h30 : i = 30
  · subst h30
    have h1 : ((List.range 0x1F).map (mkDesc base)).length - 1 = 30 := by
      rw [hlen]
    rw [if_pos rfl, buildBdl, ← h1, setLastDesc_getD_last _ _ (by simp), h1,
      rangeMap_getD _ _ _ (by omega)]
  · rw [if_neg h30, buildBdl, setLastDesc_getD _ _ _ (by omega),
      rangeMap_getD _ _ _ hi]

theorem copyWindow_length (data : List Nat) (off n : Nat) :
    (copyWindow data off n).length = n := by
  simp [copyWindow]

theorem copyWindow_eq (data : List Nat) (off n : Nat) :
    copyWindow data off n =
      (data.drop off).take n ++ List.replicate (n - (data.length - off)) 0 := by
  rw [copyWindow, List.take_append_eq_append_take, List.take_replicate]
  have h1 : (data.drop off).length = data.length - off := by
    simp
  rw [h1, Nat.min_eq_left (Nat.sub_le _ _)]

theorem numIters_zero : numIters 0 = 0 := by decide

theorem numIters_succ (m : Nat) (hm : 0 < m) :
    numIters m = numIters (m - ringBytes) + 1 := by
  unfold numIters
  rw [ringBytes_val]
  omega

theorem playLoop_state (fuel : Nat) (data : List Nat) (os : Nat → IterOracle)
    (st : Ac97State) (off : Nat) :
    (playLoop fuel data os st off).2.bdl = st.bdl ∧
    (playLoop fuel data os st off).2.bdlPhys = st.bdlPhys ∧
    (playLoop fuel data os st off).2.buf.length = st.buf.length := by
  induction fuel generalizing os st off with
  | zero => exact ⟨rfl, rfl, rfl⟩
  | succ fuel ih =>
    by_cases h : off < data.length
    · rw [playLoop, if_pos h]
      have := ih (fun i => os (i + 1)) (iterStep data off (os 0) st).2
        (off + ringBytes)
      simp only [iterStep] at this ⊢
      refine ⟨this.1, this.2.1, ?_⟩
      rw [this.2.2]
      exact copyWindow_length _ _ _
    · rw [playLoop, if_neg h]
      exact ⟨rfl, rfl, rfl⟩

set_option maxRecDepth 2048 in
theorem playLoop_trace (fuel : Nat) (data : List Nat) (os : Nat → IterOracle)
    (st : Ac97State) (off : Nat) (hf : data.length - off ≤ fuel) :
    (playLoop fuel data os st off).1 =
      tracesFrom
        (fun k => iterEvents data (off + k * ringBytes) (os k)
          st.bdl.length st.bdlPhys st.buf.length)
        (numIters (data.length - off)) := by
  induction fuel generalizing os st off with
  | zero =>
    have hz : data.length - off = 0 := by omega
    rw [playLoop, hz, numIters_zero, tracesFrom]
  | succ fuel ih =>
    by_cases h : off < data.length
    · rw [playLoop, if_pos h]
      have hn : numIters (data.length - off) =
          numIters (data.length - (off + ringBytes)) + 1 := by
        unfold numIters
        rw [ringBytes_val]
        omega
      have hf2 : data.length - (off + ringBytes) ≤ fuel := by
        have := ringBytes_pos
        omega
      rw [hn, tracesFrom]
      have hrec := ih (fun i => os (i + 1)) (iterStep data off (os 0) st).2
        (off + ringBytes) hf2
      simp only [iterStep] at hrec ⊢
      have hbuf : (copyWindow data off st.buf.length).length = st.buf.length :=
        copyWindow_length _ _ _
      rw [hrec]
      simp only [hbuf, Nat.zero_mul, Nat.add_zero]
      have hfun :
          (fun k => iterEvents data (off + ringBytes + k * ringBytes)
            (os (k + 1)) st.bdl.length st.bdlPhys st.buf.length)
          = (fun i => iterEvents data (off + (i + 1) * ringBytes)
            (os (i + 1)) st.bdl.length st.bdlPhys st.buf.length) := by
        funext i
        have harith : off + ringBytes + i * ringBytes
            = off + (i + 1) * ringBytes := by ring
        rw [harith]
      rw [hfun]
    · rw [playLoop, if_neg h]
      have hz : data.length - off = 0 := by omega
      rw [hz, numIters_zero, tracesFrom]

theorem copyEvents_append (a b : List Event) :
    copyEvents (a ++ b) = copyEvents a ++ copyEvents b :=
  List.filterMap_append a b copyOf

theorem filterMapCopy_replicate (n : Nat) (e : Event) (he : copyOf e = none) :
    List.filterMap copyOf (List.replicate n e) = [] := by
  induction n with
  | zero => rfl
  | succ n ih => simp [List.replicate_succ, List.filterMap_cons, he, ih]

theorem copyEvents_iterEvents (data : List Nat) (off : Nat) (o : IterOracle)
    (a b c : Nat) :
    copyEvents (iterEvents data off o a b c) = [copyWindow data off c] := by
  simp [iterEvents, copyEvents, List.filterMap_append, List.filterMap_cons,
    filterMapCopy_replicate, copyOf]

theorem copyEvents_tracesFrom (f : Nat → List Event) (g : Nat → List Nat)
    (n : Nat) (h : ∀ k, copyEvents (f k) = [g k]) :
    copyEvents (tracesFrom f n) = (List.range n).map g := by
  induction n generalizing f g with
  | zero => rfl
  | succ n ih =>
    rw [tracesFrom, copyEvents_append, h 0, List.range_succ_eq_map,
      List.map_cons, List.map_map,
      ih (fun i => f (i + 1)) (fun i => g (i + 1)) (fun k => h (k + 1))]
    rfl

theorem findIdx_replicate_append (p : Event → Bool) (n : Nat) (e : Event)
    (he : p e = false) (l : List Event) :
    (List.replicate n e ++ l).findIdx p = n + l.findIdx p := by
  induction n with
  | zero => simp
  | succ n ih =>
    rw [List.replicate_succ, List.cons_append, List.findIdx_cons, he]
    simp only [cond_false, ih]
    omega

/-! ## Claims -/

/-- C10: For every combination of arguments, `BootInfo::new` returns a
structure whose `revision` field equals `CURRENT_REVISION` (0x17) and
whose `memory_map` field is the empty slice, regardless of the arguments
supplied; the memory map is never populated by the constructor. -/
theorem bootinfo_new_revision_and_empty_mmap (K S M F R : Type)
    (ks : List K) (s : S) (fb : Option F) (rsdp : R) (dc : List Nat) :
    (BootInfo.new ks s fb rsdp dc : BootInfo K S M F R).revision
        = CURRENT_REVISION ∧
    CURRENT_REVISION = 0x17 ∧
    (BootInfo.new ks s fb rsdp dc : BootInfo K S M F R).memory_map = [] :=
  ⟨rfl, rfl, rfl⟩

/-- C4: For every register type of the Register Model and every defined
field configuration, including boundary values, converting the struct to
its raw fixed-width integer and converting that integer back yields the
identical struct (for the two registers with enumerated fields, decoding
is checked and returns the struct). -/
theorem register_roundtrip :
    (∀ r, r < 64 → ∀ l, l < 64 → ∀ m : Bool,
      MasterOutputVolume.ofRaw (MasterOutputVolume.toRaw ⟨r, l, m⟩) = ⟨r, l, m⟩) ∧
    (∀ r, r < 32 → ∀ l, l < 32 → ∀ m : Bool,
      PcmOutputVolume.ofRaw (PcmOutputVolume.toRaw ⟨r, l, m⟩) = ⟨r, l, m⟩) ∧
    (∀ a b c d e : Bool,
      RegBoxTransfer.ofRaw (RegBoxTransfer.toRaw ⟨a, b, c, d, e⟩) = ⟨a, b, c, d, e⟩) ∧
    (∀ a b c d e : Bool,
      RegBoxStatus.ofRaw (RegBoxStatus.toRaw ⟨a, b, c, d, e⟩) = ⟨a, b, c, d, e⟩) ∧
    (∀ a b c d : Bool, ∀ ch : PcmChannels, ∀ pm : PcmOutMode,
      GlobalControl.ofRaw (GlobalControl.toRaw ⟨a, b, c, d, ch, pm⟩)
        = some ⟨a, b, c, d, ch, pm⟩) ∧
    (∀ ch : PcmChannels, ∀ pm : PcmOutMode,
      GlobalStatus.ofRaw (GlobalStatus.toRaw ⟨ch, pm⟩) = some ⟨ch, pm⟩) ∧
    (∀ a b : Bool,
      BufferDescCtl.ofRaw (BufferDescCtl.toRaw ⟨a, b⟩) = ⟨a, b⟩) := by
  refine ⟨by decide, by decide, by decide, by decide, by decide, by decide, by decide⟩

/-- Witness for C4 at the boundary configuration: maximum volume fields
with mute on. -/
theorem register_roundtrip_witness :
    MasterOutputVolume.ofRaw (MasterOutputVolume.toRaw ⟨63, 63, true⟩)
      = ⟨63, 63, true⟩ :=
  register_roundtrip.1 63 (by decide) 63 (by decide) true

/-- C7: At construction, the Audio Buffer is allocated as a single
contiguous zero-initialized region whose length in bytes exactly equals
the total ring capacity `31 * 65534 * 2`. -/
theorem audio_buffer_size (pb bp : Nat) (o : NewOracle) :
    (ac97_new pb bp o).2.buf = List.replicate ringBytes 0 ∧
    (ac97_new pb bp o).2.buf.length = ringBytes ∧
    ringBytes = 31 * 65534 * 2 :=
  ⟨rfl, by simp [ac97_new], rfl⟩

/-- C6: At bring-up the master output volume register is written with
both channels at the 6-bit maximum and mute cleared, the PCM output
volume register with both channels at the 5-bit maximum and mute
cleared, and the sample-rate register is unconditionally written
with 44100. -/
theorem bringup_volume_and_sample_rate (pb bp : Nat) (o : NewOracle) :
    Event.writeMasterVol masterVolInit ∈ (ac97_new pb bp o).1 ∧
    Event.writePcmVol pcmVolInit ∈ (ac97_new pb bp o).1 ∧
    Event.writeSampleRate 44100 ∈ (ac97_new pb bp o).1 ∧
    MasterOutputVolume.ofRaw masterVolInit = ⟨2 ^ 6 - 1, 2 ^ 6 - 1, false⟩ ∧
    PcmOutputVolume.ofRaw pcmVolInit = ⟨2 ^ 5 - 1, 2 ^ 5 - 1, false⟩ := by
  refine ⟨?_, ?_, ?_, by decide, by decide⟩ <;> simp [ac97_new]

/-- C9: For every input, `play_audio` leaves the Descriptor Ring
completely unchanged — in particular, starting from the bring-up state,
the ring after playback is still `buildBdl pb`, with its 31 entries and
their bring-up contents — and it never resizes the Audio Buffer;
re-arming happens only through the BDL address and last-entry register
writes recorded in the trace. -/
theorem play_audio_preserves_ring (data : List Nat) (os : Nat → IterOracle)
    (st : Ac97State) (pb bp : Nat) (o : NewOracle) :
    (play_audio data os st).2.bdl = st.bdl ∧
    (play_audio data os st).2.bdlPhys = st.bdlPhys ∧
    (play_audio data os st).2.buf.length = st.buf.length ∧
    (play_audio data os (ac97_new pb bp o).2).2.bdl = buildBdl pb ∧
    (play_audio data os (ac97_new pb bp o).2).2.bdl.length = 0x1F := by
  have h1 := playLoop_state data.length data os st 0
  have h2 := playLoop_state data.length data os (ac97_new pb bp o).2 0
  refine ⟨h1.1, h1.2.1, h1.2.2, ?_, ?_⟩
  · rw [play_audio, h2.1]
    rfl
  · rw [play_audio, h2.1]
    exact buildBdl_length pb

/-- C1: The descriptor ring built at construction has exactly 31 (0x1F)
entries; for every index `i < 31`, entry `i`'s physical address equals
the buffer's physical base address plus `i * 0xFFFE * 2` bytes (given
the ring fits below the 4 GiB u32 limit) and its sample count is
`0xFFFE`; only the final entry (index 30) has its `last` flag set, and
no entry has `fire_interrupt` set. -/
theorem descriptor_ring_layout (base i : Nat)
    (hb : base + 0x1F * 0xFFFE * 2 ≤ 2 ^ 32) (hi : i < 0x1F) :
    (buildBdl base).length = 0x1F ∧
    ((buildBdl base).getD i dfltDesc).addr = base + i * (0xFFFE * 2) ∧
    ((buildBdl base).getD i dfltDesc).samples = 0xFFFE ∧
    ((buildBdl base).getD i dfltDesc).ctl.last = decide (i = 30) ∧
    ((buildBdl base).getD i dfltDesc).ctl.fire_interrupt = false := by
  have h32 : (2 : Nat) ^ 32 = 4294967296 := by norm_num
  have hoff : off_calc i = 131068 * i := by
    unfold off_calc
    norm_num
  have hmod : (base + off_calc i) % 2 ^ 32 = base + off_calc i := by
    apply Nat.mod_eq_of_lt
    rw [h32, hoff]
    rw [h32] at hb
    omega
  have haddr : (base + off_calc i) % 2 ^ 32 = base + i * (0xFFFE * 2) := by
    rw [hmod, hoff]
    norm_num
    omega
  rw [buildBdl_getD base i hi]
  by_cases h30 : i = 30
  · subst h30
    refine ⟨buildBdl_length base, ?_, rfl, rfl, rfl⟩
    simpa [mkDesc] using haddr
  · rw [if_neg h30]
    refine ⟨buildBdl_length base, ?_, rfl, ?_, rfl⟩
    · simpa [mkDesc] using haddr
    · simp [mkDesc, h30]

/-- Witness for C1 at the final ring entry of a ring based at 0. -/
theorem descriptor_ring_layout_witness :
    (buildBdl 0).length = 0x1F ∧
    ((buildBdl 0).getD 30 dfltDesc).addr = 0 + 30 * (0xFFFE * 2) ∧
    ((buildBdl 0).getD 30 dfltDesc).samples = 0xFFFE ∧
    ((buildBdl 0).getD 30 dfltDesc).ctl.last = decide (30 = 30) ∧
    ((buildBdl 0).getD 30 dfltDesc).ctl.fire_interrupt = false :=
  descriptor_ring_layout 0 30 (by decide) (by decide)

/-- C3: For every input of length `len`, `play_audio` terminates with a
trace that is the concatenation of exactly `numIters len =
ceil(len / ringBytes)` per-iteration reset/arm/copy/start/poll cycles; a
zero-length input exits immediately with an empty trace (no hardware
register access) and unchanged state, and a length that is an exact
multiple of the window performs exactly `len / ringBytes` iterations
(no extra silent pass). -/
theorem play_audio_iteration_count (data : List Nat) (os : Nat → IterOracle)
    (st : Ac97State) :
    (play_audio data os st).1
      = tracesFrom (fun k => iterEvents data (k * ringBytes) (os k)
          st.bdl.length st.bdlPhys st.buf.length) (numIters data.length) ∧
    numIters data.length = (data.length + ringBytes - 1) / ringBytes ∧
    play_audio ([] : List Nat) os st = ([], st) ∧
    (data.length % ringBytes = 0 →
      numIters data.length = data.length / ringBytes) := by
  refine ⟨?_, rfl, rfl, ?_⟩
  · have h := playLoop_trace data.length data os st 0 (by omega)
    simp only [Nat.sub_zero, Nat.zero_add] at h
    rw [play_audio, h]
  · intro hmod
    unfold numIters
    rw [ringBytes_val] at hmod ⊢
    omega

/-- Witness for C3 on a one-byte input (one iteration) and the empty
input (zero iterations). -/
theorem play_audio_iteration_count_witness :
    (play_audio [1] (fun _ => ⟨0, 0, 0, 0⟩) ⟨[], [], 0⟩).1
      = tracesFrom (fun k => iterEvents [1] (k * ringBytes)
          ((fun _ => (⟨0, 0, 0, 0⟩ : IterOracle)) k)
          (Ac97State.mk [] [] 0).bdl.length (Ac97State.mk [] [] 0).bdlPhys
          (Ac97State.mk [] [] 0).buf.length) (numIters 1) ∧
    play_audio ([] : List Nat) (fun _ => ⟨0, 0, 0, 0⟩) ⟨[], [], 0⟩
      = ([], ⟨[], [], 0⟩) :=
  ⟨(play_audio_iteration_count [1] (fun _ => ⟨0, 0, 0, 0⟩) ⟨[], [], 0⟩).1,
   (play_audio_iteration_count [1] (fun _ => ⟨0, 0, 0, 0⟩) ⟨[], [], 0⟩).2.2.1⟩

/-- C2: On every iteration of the `play_audio` loop with cursor `off`,
the copy step leaves the Audio Buffer holding the next
`min(len - off, ringBytes)` input bytes starting at `off` followed by
zero padding; in particular for an input of `ringBytes + 1` bytes the
two iterations' buffers are the first full window verbatim (no padding)
and then 1 real byte followed by `ringBytes - 1` zeros. -/
theorem play_audio_copy_step (data : List Nat) (off : Nat)
    (os : Nat → IterOracle) (st : Ac97State) (hb : st.buf.length = ringBytes) :
    copyEvents (play_audio data os st).1
      = (List.range (numIters data.length)).map
          (fun k => copyWindow data (k * ringBytes) ringBytes) ∧
    copyWindow data off ringBytes
      = (data.drop off).take ringBytes
        ++ List.replicate (ringBytes - (data.length - off)) 0 ∧
    (data.length = ringBytes + 1 →
      copyEvents (play_audio data os st).1
        = [data.take ringBytes,
           data.drop ringBytes ++ List.replicate (ringBytes - 1) 0]) := by
  have htrace := playLoop_trace data.length data os st 0 (by omega)
  have hmain : copyEvents (play_audio data os st).1
      = (List.range (numIters data.length)).map
          (fun k => copyWindow data (k * ringBytes) ringBytes) := by
    rw [play_audio, htrace]
    have hce : ∀ k, copyEvents (iterEvents data (0 + k * ringBytes) (os k)
        st.bdl.length st.bdlPhys st.buf.length)
        = [copyWindow data (0 + k * ringBytes) st.buf.length] :=
      fun k => copyEvents_iterEvents data (0 + k * ringBytes) (os k) _ _ _
    rw [copyEvents_tracesFrom _ _ _ hce]
    simp only [Nat.sub_zero, Nat.zero_add, hb]
  refine ⟨hmain, copyWindow_eq data off ringBytes, ?_⟩
  intro hlen
  have e1 : copyWindow data 0 ringBytes = data.take ringBytes := by
    rw [copyWindow_eq, hlen]
    have hz : ringBytes - (ringBytes + 1 - 0) = 0 := by omega
    rw [hz]
    simp
  have e2 : copyWindow data ringBytes ringBytes
      = data.drop ringBytes ++ List.replicate (ringBytes - 1) 0 := by
    rw [copyWindow_eq, hlen]
    have hlen2 : (data.drop ringBytes).length ≤ ringBytes := by
      rw [List.length_drop, hlen]
      have := ringBytes_pos
      omega
    rw [List.take_of_length_le hlen2]
    have hz : ringBytes + 1 - ringBytes = 1 := by omega
    rw [hz]
  have h2 : numIters data.length = 2 := by
    unfold numIters
    rw [hlen, ringBytes_val]
  have hrange : List.range 2 = [0, 1] := rfl
  rw [hmain, h2, hrange]
  simp only [List.map_cons, List.map_nil, Nat.zero_mul, Nat.one_mul, e1, e2]

/-- Witness for C2 on an input of `ringBytes + 1` copies of byte 3,
played from the bring-up buffer (a `ringBytes`-byte buffer of zeros). -/
theorem play_audio_copy_step_witness :
    copyEvents (play_audio (List.replicate (ringBytes + 1) 3)
        (fun _ => ⟨0, 0, 0, 0⟩) ⟨List.replicate ringBytes 0, [], 0⟩).1
      = [(List.replicate (ringBytes + 1) 3).take ringBytes,
         (List.replicate (ringBytes + 1) 3).drop ringBytes
           ++ List.replicate (ringBytes - 1) 0] :=
  (play_audio_copy_step (List.replicate (ringBytes + 1) 3) 0
    (fun _ => ⟨0, 0, 0, 0⟩) ⟨List.replicate ringBytes 0, [], 0⟩
    (by simp)).2.2 (by simp)

/-- C8: For every register type and every field setter, writing a field
changes only the bits of that field's declared range — every other bit
of the raw register is preserved verbatim — and a freshly constructed
register (all fields at their defaults) has raw value 0, so its reserved
bits are zero. -/
theorem field_setters_touch_only_their_bits :
    (∀ r v j, v < 2 ^ 6 → ¬ j < 6 → j < 16 →
      (MasterOutputVolume.with_right r v).testBit j = r.testBit j) ∧
    (∀ r v j, v < 2 ^ 6 → ¬ (8 ≤ j ∧ j < 14) → j < 16 →
      (MasterOutputVolume.with_left r v).testBit j = r.testBit j) ∧
    (∀ r j (b : Bool), j ≠ 15 → j < 16 →
      (MasterOutputVolume.with_mute r b).testBit j = r.testBit j) ∧
    (∀ r v j, v < 2 ^ 5 → ¬ j < 5 → j < 16 →
      (PcmOutputVolume.with_right r v).testBit j = r.testBit j) ∧
    (∀ r v j, v < 2 ^ 5 → ¬ (8 ≤ j ∧ j < 13) → j < 16 →
      (PcmOutputVolume.with_left r v).testBit j = r.testBit j) ∧
    (∀ r j (b : Bool), j ≠ 15 → j < 16 →
      (PcmOutputVolume.with_mute r b).testBit j = r.testBit j) ∧
    (∀ r j (b : Bool), j ≠ 0 → j < 8 →
      (RegBoxTransfer.with_transfer_data r b).testBit j = r.testBit j) ∧
    (∀ r j (b : Bool), j ≠ 1 → j < 8 →
      (RegBoxTransfer.with_reset r b).testBit j = r.testBit j) ∧
    (∀ r j (b : Bool), j ≠ 2 → j < 8 →
      (RegBoxTransfer.with_last_ent_fire_intr r b).testBit j = r.testBit j) ∧
    (∀ r j (b : Bool), j ≠ 3 → j < 8 →
      (RegBoxTransfer.with_ioc_intr r b).testBit j = r.testBit j) ∧
    (∀ r j (b : Bool), j ≠ 4 → j < 8 →
      (RegBoxTransfer.with_fifo_err_intr r b).testBit j = r.testBit j) ∧
    (∀ r j (b : Bool), j ≠ 0 → j < 16 →
      (RegBoxStatus.with_transfer_data r b).testBit j = r.testBit j) ∧
    (∀ r j (b : Bool), j ≠ 1 → j < 16 →
      (RegBoxStatus.with_end_of_transfer r b).testBit j = r.testBit j) ∧
    (∀ r j (b : Bool), j ≠ 2 → j < 16 →
      (RegBoxStatus.with_last_ent_fire_intr r b).testBit j = r.testBit j) ∧
    (∀ r j (b : Bool), j ≠ 3 → j < 16 →
      (RegBoxStatus.with_ioc_intr r b).testBit j = r.testBit j) ∧
    (∀ r j (b : Bool), j ≠ 4 → j < 16 →
      (RegBoxStatus.with_fifo_err_intr r b).testBit j = r.testBit j) ∧
    (∀ r j (b : Bool), j ≠ 0 → j < 32 →
      (GlobalControl.with_interrupts r b).testBit j = r.testBit j) ∧
    (∀ r j (b : Bool), j ≠ 1 → j < 32 →
      (GlobalControl.with_cold_reset r b).testBit j = r.testBit j) ∧
    (∀ r j (b : Bool), j ≠ 2 → j < 32 →
      (GlobalControl.with_warm_reset r b).testBit j = r.testBit j) ∧
    (∀ r j (b : Bool), j ≠ 3 → j < 32 →
      (GlobalControl.with_shut_down r b).testBit j = r.testBit j) ∧
    (∀ r j (c : PcmChannels), ¬ (20 ≤ j ∧ j < 22) → j < 32 →
      (GlobalControl.with_channels r c).testBit j = r.testBit j) ∧
    (∀ r j (m : PcmOutMode), ¬ (22 ≤ j ∧ j < 24) → j < 32 →
      (GlobalControl.with_pcm_out_mode r m).testBit j = r.testBit j) ∧
    (∀ r j (m : PcmOutMode), ¬ (22 ≤ j ∧ j < 24) → j < 32 →
      (GlobalStatus.with_sample_caps r m).testBit j = r.testBit j) ∧
    (∀ r j (b : Bool), j ≠ 14 → j < 16 →
      (BufferDescCtl.with_last r b).testBit j = r.testBit j) ∧
    (∀ r j (b : Bool), j ≠ 15 → j < 16 →
      (BufferDescCtl.with_fire_interrupt r b).testBit j = r.testBit j) ∧
    MasterOutputVolume.toRaw ⟨0, 0, false⟩ = 0 ∧
    PcmOutputVolume.toRaw ⟨0, 0, false⟩ = 0 ∧
    RegBoxTransfer.toRaw ⟨false, false, false, false, false⟩ = 0 ∧
    RegBoxStatus.toRaw ⟨false, false, false, false, false⟩ = 0 ∧
    GlobalControl.toRaw
      ⟨false, false, false, false, PcmChannels.Two, PcmOutMode.SixteenSamples⟩ = 0 ∧
    GlobalStatus.toRaw ⟨PcmChannels.Two, PcmOutMode.SixteenSamples⟩ = 0 ∧
    BufferDescCtl.toRaw ⟨false, false⟩ = 0 :=
  ⟨fun _ _ j _ hj hw => setBits_testBit_outside (by omega) (by omega) hw,
   fun _ _ j _ hj hw => setBits_testBit_outside (by omega) (by omega) hw,
   fun _ j _ hj hw => setBits_testBit_outside (by omega) (by omega) hw,
   fun _ _ j _ hj hw => setBits_testBit_outside (by omega) (by omega) hw,
   fun _ _ j _ hj hw => setBits_testBit_outside (by omega) (by omega) hw,
   fun _ j _ hj hw => setBits_testBit_outside (by omega) (by omega) hw,
   fun _ j _ hj hw => setBits_testBit_outside (by omega) (by omega) hw,
   fun _ j _ hj hw => setBits_testBit_outside (by omega) (by omega) hw,
   fun _ j _ hj hw => setBits_testBit_outside (by omega) (by omega) hw,
   fun _ j _ hj hw => setBits_testBit_outside (by omega) (by omega) hw,
   fun _ j _ hj hw => setBits_testBit_outside (by omega) (by omega) hw,
   fun _ j _ hj hw => setBits_testBit_outside (by omega) (by omega) hw,
   fun _ j _ hj hw => setBits_testBit_outside (by omega) (by omega) hw,
   fun _ j _ hj hw => setBits_testBit_outside (by omega) (by omega) hw,
   fun _ j _ hj hw => setBits_testBit_outside (by omega) (by omega) hw,
   fun _ j _ hj hw => setBits_testBit_outside (by omega) (by omega) hw,
   fun _ j _ hj hw => setBits_testBit_outside (by omega) (by omega) hw,
   fun _ j _ hj hw => setBits_testBit_outside (by omega) (by omega) hw,
   fun _ j _ hj hw => setBits_testBit_outside (by omega) (by omega) hw,
   fun _ j _ hj hw => setBits_testBit_outside (by omega) (by omega) hw,
   fun _ j _ hj hw => setBits_testBit_outside (by omega) (by omega) hw,
   fun _ j _ hj hw => setBits_testBit_outside (by omega) (by omega) hw,
   fun _ j _ hj hw => setBits_testBit_outside (by omega) (by omega) hw,
   fun _ j _ hj hw => setBits_testBit_outside (by omega) (by omega) hw,
   fun _ j _ hj hw => setBits_testBit_outside (by omega) (by omega) hw,
   by decide, by decide, by decide, by decide, by decide, by decide, by decide⟩

/-- Witness for C8: setting the right-volume field of an arbitrary
register value leaves bit 7 unchanged. -/
theorem field_setters_touch_only_their_bits_witness :
    (MasterOutputVolume.with_right 43981 5).testBit 7 = Nat.testBit 43981 7 :=
  field_setters_touch_only_their_bits.1 43981 5 7 (by decide) (by decide)
    (by decide)

/-- A concrete bring-up run: all hardware reads return 0, the reset poll
sees the bit clear on its first read. -/
def newOracle0 : NewOracle := ⟨0, 0, 0, 0⟩

/-- C5 counterexample: in the bring-up trace, the PCM-out transfer-engine
reset (the first transfer-control write, claimed step 6) does NOT precede
the Audio Buffer allocation (claimed step 7) — the buffer is allocated
and the ring is built before the cold reset, right after BAR
resolution. -/
theorem bringup_order_counterexample :
    ¬ ((ac97_new 0 0 newOracle0).1.findIdx Event.isWriteTransferCtl
        < (ac97_new 0 0 newOracle0).1.findIdx Event.isAllocBuf) := by
  decide

/-- C5 (amended): the hardware bring-up steps occur in the spec's order
— PCI command write, BAR reads, cold reset, mixer reset, volume then
sample-rate programming, transfer-engine reset with its poll, and
finally BDL programming with final index 30 — but the Audio Buffer
allocation and Descriptor Ring construction happen right after BAR
resolution and before the cold reset, not between the transfer-engine
reset and the BDL programming. -/
theorem bringup_order (pb bp : Nat) (o : NewOracle) :
    (ac97_new pb bp o).1.findIdx Event.isCfgWrite = 1 ∧
    (ac97_new pb bp o).1.findIdx Event.isBarRead = 2 ∧
    (ac97_new pb bp o).1.findIdx Event.isAllocBuf = 4 ∧
    (ac97_new pb bp o).1.findIdx Event.isBuildRing = 5 ∧
    (ac97_new pb bp o).1.findIdx Event.isWriteGlobalCtl = 7 ∧
    (ac97_new pb bp o).1.findIdx Event.isWriteMixerReset = 8 ∧
    (ac97_new pb bp o).1.findIdx Event.isWriteMasterVol = 9 ∧
    (ac97_new pb bp o).1.findIdx Event.isWritePcmVol = 10 ∧
    (ac97_new pb bp o).1.findIdx Event.isWriteSampleRate = 12 ∧
    (ac97_new pb bp o).1.findIdx Event.isWriteTransferCtl = 14 ∧
    (ac97_new pb bp o).1.findIdx Event.isWriteBdlAddr = 16 + o.rstPolls ∧
    (ac97_new pb bp o).1.findIdx Event.isWriteLastEnt = 17 + o.rstPolls ∧
    Event.writeLastEnt 30 ∈ (ac97_new pb bp o).1 := by
  refine ⟨?_, ?_, ?_, ?_, ?_, ?_, ?_, ?_, ?_, ?_, ?_, ?_, ?_⟩ <;>
    simp [ac97_new, List.findIdx_cons, findIdx_replicate_append,
      Event.isCfgWrite, Event.isBarRead, Event.isAllocBuf, Event.isBuildRing,
      Event.isWriteGlobalCtl, Event.isWriteMixerReset, Event.isWriteMasterVol,
      Event.isWritePcmVol, Event.isWriteSampleRate, Event.isWriteTransferCtl,
      Event.isWriteBdlAddr, Event.isWriteLastEnt,
      cfgCommand, cfgBaseAddr0, cfgBaseAddr1, buildBdl_length] <;>
    omega
